import Mathlib

/-!
Verification development for the `node-http-file-server` repository
(`src/unnamed/part_000`, second document — the streaming variant — and
`src/http-file-server.js`).  The request pipeline is shallowly embedded:
JavaScript strings are modelled as `List Char` (one `Char` per code unit;
request paths are treated byte-wise, which is exact for ASCII), file
contents as `List Nat` (bytes), and the asynchronous callback chain as a
pure function from a finite filesystem model to a response together with
a trace of the filesystem operations it performs.
-/

namespace HttpFileServer

/-- Strings of the modelled program: one `Char` per JavaScript code unit. -/
abbrev Str := List Char

/-- A text body rendered to bytes (the served pages are ASCII, so one
byte per character is exact). -/
def strBytes (s : Str) : List Nat := s.map Char.toNat

/-! ## Path Resolver (part_000 lines 298–302)

```js
var pathname = url.parse(req.url).pathname;
pathname = decodeURIComponent(pathname.split('+').join(' '));
while (pathname.substr(0, 1) == '/') { pathname = pathname.substr(1); }
```
-/

/-- `pathname.split('+').join(' ')`: every literal `+` becomes a space. -/
def plusToSpace : Str → Str
  | [] => []
  | c :: cs => (if c = '+' then ' ' else c) :: plusToSpace cs

/-- Value of a hex digit, as used by percent-decoding. -/
def hexVal (c : Char) : Option Nat :=
  if '0' ≤ c ∧ c ≤ '9' then some (c.toNat - 48)
  else if 'A' ≤ c ∧ c ≤ 'F' then some (c.toNat - 55)
  else if 'a' ≤ c ∧ c ≤ 'f' then some (c.toNat - 87)
  else none

/-- `decodeURIComponent`, modelled at the code-unit level: `%HH` becomes
the character with code `HH`; a `%` not followed by two hex digits makes
the real function throw `URIError`, modelled as `none`.  (The UTF-8
multi-byte recombination performed by the real function is identity on
the ASCII range modelled here.) -/
def percentDecode : Str → Option Str
  | [] => some []
  | '%' :: a :: b :: rest =>
    match hexVal a, hexVal b with
    | some ha, some hb => (percentDecode rest).map (fun r => Char.ofNat (16 * ha + hb) :: r)
    | _, _ => none
  | '%' :: _ :: [] => none
  | ['%'] => none
  | c :: cs => (percentDecode cs).map (fun r => c :: r)

/-- The `while` loop stripping every leading `/` from the pathname. -/
def stripLeadingSlashes : Str → Str
  | [] => []
  | c :: cs => if c = '/' then stripLeadingSlashes cs else c :: cs

/-- The decoded pathname the request handler computes:
`decodeURIComponent(pathname.split('+').join(' '))`, then the
slash-stripping loop.  Note the `split('+').join(' ')` runs *before*
`decodeURIComponent` (it is its argument).  `none` models the uncaught
`URIError` on malformed percent-encoding. -/
def decodedPathOf (raw : Str) : Option Str :=
  (percentDecode (plusToSpace raw)).map stripLeadingSlashes

/-- Claim C6's wording of the Path Resolver: *first* percent-decode,
*then* replace `+` by space, then strip leading slashes.  Kept separate
from `decodedPathOf` (which follows the source) so the two orders can be
compared. -/
def decodedPathClaimed (raw : Str) : Option Str :=
  (percentDecode raw).map (fun s => stripLeadingSlashes (plusToSpace s))

/-- The amended wording of claim C6: replace every literal `+` by a
space first, then percent-decode, then drop all leading slashes. -/
def decodedPathAmended (raw : Str) : Option Str :=
  (percentDecode (raw.map (fun c => if c = '+' then ' ' else c))).map
    (List.dropWhile (fun c => c == '/'))

/-! ## `path.join` (Node's POSIX join: concatenate with `/`, then
normalize `.`/`..`/duplicate slashes). -/

/-- Split a path on `/` (the accumulator holds the current segment
reversed). -/
def splitSlashAux (cur : Str) : Str → List Str
  | [] => [cur.reverse]
  | c :: cs => if c = '/' then cur.reverse :: splitSlashAux [] cs else splitSlashAux (c :: cur) cs

def splitSlash (s : Str) : List Str := splitSlashAux [] s

/-- Normalization of the segment list, as `path.normalize` does: drop
empty and `.` segments, let `..` pop the previous segment (kept at the
head of a relative result, dropped at the root of an absolute one). -/
def normSegsAux (isAbs : Bool) (acc : List Str) : List Str → List Str
  | [] => acc.reverse
  | seg :: rest =>
    if seg = [] ∨ seg = ['.'] then normSegsAux isAbs acc rest
    else if seg = ['.', '.'] then
      match acc with
      | [] => if isAbs then normSegsAux isAbs [] rest else normSegsAux isAbs [seg] rest
      | top :: tl =>
        if top = ['.', '.'] then normSegsAux isAbs (seg :: acc) rest
        else normSegsAux isAbs tl rest
    else normSegsAux isAbs (seg :: acc) rest

/-- Intercalate `/` between segments. -/
def joinSegs : List Str → Str
  | [] => []
  | [s] => s
  | s :: rest => s ++ '/' :: joinSegs rest

/-- Node `path.posix.normalize`. -/
def normalizePath (p : Str) : Str :=
  let isAbs : Bool := p.head? = some '/'
  let segs := normSegsAux isAbs [] (splitSlash p)
  let core := (if isAbs then ['/'] else []) ++ joinSegs segs
  let core := if core = [] then ['.'] else core
  if p.getLast? = some '/' ∧ core ≠ ['/'] ∧ core.getLast? ≠ some '/' then core ++ ['/'] else core

/-- Node `path.posix.join` of two parts (empty parts are skipped before
joining, and an empty join yields `.`). -/
def pathJoin (a b : Str) : Str :=
  let joined := if a = [] then b else if b = [] then a else a ++ '/' :: b
  if joined = [] then ['.'] else normalizePath joined

/-- `resolvedPath`: `path.join(filesPath, pathname)` (part_000 line 305). -/
def resolvePath (root raw : Str) : Option Str :=
  (decodedPathOf raw).map (pathJoin root)

/-! ## `path.extname` and the MIME table (part_000 lines 214–242, 412–430) -/

/-- The characters after the last `/`, if any. -/
def afterLastSlash : Str → Option Str
  | [] => none
  | c :: cs =>
    match afterLastSlash cs with
    | some s => some s
    | none => if c = '/' then some cs else none

/-- The final path segment (`path.basename`, no trailing-slash trimming
needed for the paths considered here). -/
def basenameOf (p : Str) : Str := (afterLastSlash p).getD p

/-- The suffix of a string starting at its last `.` (dot included). -/
def fromLastDot : Str → Option Str
  | [] => none
  | c :: cs =>
    match fromLastDot cs with
    | some s => some s
    | none => if c = '.' then some (c :: cs) else none

/-- Claim C5's description of the extension: the substring after the
last `.` of the final path segment, including the dot (empty when there
is no dot at all). -/
def claimedExt (p : Str) : Str := (fromLastDot (basenameOf p)).getD []

/-- Node `path.extname` (POSIX): empty when the basename has no dot or
when its only dot is the leading character of the basename (dotfiles and
`..` have no extension); otherwise the suffix from the last dot. -/
def extname (p : Str) : Str :=
  if basenameOf p = ['.', '.'] then []
  else
    match fromLastDot (basenameOf p) with
    | none => []
    | some s => if s.length = (basenameOf p).length then [] else s

/-- The `contentTypes` table (part_000 lines 215–242; `defEnc` is
`utf-8`), without the `'*'` fallback entry, which the lookup loop skips. -/
def contentTypes : List (Str × Str) :=
  [(".html".data, "text/html; charset=utf-8".data),
   (".css".data, "text/css; charset=utf-8".data),
   (".less".data, "text/css; charset=utf-8".data),
   (".js".data, "text/javascript; charset=utf-8".data),
   (".txt".data, "text/plain; charset=utf-8".data),
   (".png".data, "image/png".data),
   (".jpeg".data, "image/jpeg".data),
   (".jpg".data, "image/jpeg".data),
   (".jpe".data, "image/jpeg".data),
   (".gif".data, "image/gif".data),
   (".svg".data, "image/svg+xml; charset=utf-8".data),
   (".svgz".data, "image/svg+xml; charset=utf-8".data),
   (".ico".data, "image/x-icon".data),
   (".eot".data, "application/vnd.ms-fontobject".data),
   (".woff".data, "application/font-woff".data),
   (".ttf".data, "font/ttf".data)]

/-- The `'*'` entry of `contentTypes`. -/
def fallbackType : Str := "application/octet-stream".data

/-- The lookup loop of `openFile`:
`for (var ext in contentTypes) if (ext == path.extname(fullPath)) head['Content-Type'] = contentTypes[ext];`
— a linear scan with case-sensitive string equality, the last match
(there is at most one: keys are distinct) landing in the accumulator. -/
def mimeScan (tbl : List (Str × Str)) (e : Str) (acc : Option Str) : Option Str :=
  match tbl with
  | [] => acc
  | kv :: rest => mimeScan rest e (if kv.1 = e then some kv.2 else acc)

/-- The `Content-Type` value `openFile` puts in `head`: the scan result,
or `contentTypes['*']` (which is a string) when the scan found nothing. -/
def contentTypeFor (fullPath : Str) : Str :=
  match mimeScan contentTypes (extname fullPath) none with
  | some t => t
  | none => fallbackType

/-! ## The order used by `Array.prototype.sort()` with no comparator:
lexicographic comparison of code units.  The order is total, transitive
and antisymmetric, so the sorted permutation of a list is unique and any
correct sort models the JavaScript one; we use `List.insertionSort`. -/

/-- Code-unit lexicographic strict order on strings (`a < b` of JS). -/
def strLt : Str → Str → Bool
  | _, [] => false
  | [], _ :: _ => true
  | a :: as, b :: bs =>
    if a.toNat < b.toNat then true
    else if b.toNat < a.toNat then false
    else strLt as bs

/-- Reflexive closure of `strLt`, as a Bool. -/
def strLe (a b : Str) : Bool := ! strLt b a

/-- `strLe` as a proposition, for `List.Sorted` and `List.insertionSort`. -/
def StrLe (a b : Str) : Prop := strLe a b = true

instance : DecidableRel StrLe := fun a b => inferInstanceAs (Decidable (strLe a b = true))

theorem char_eq_of_toNat_eq {a b : Char} (h : a.toNat = b.toNat) : a = b := by
  have ha := Char.ofNat_toNat a
  have hb := Char.ofNat_toNat b
  rw [← ha, ← hb, h]

theorem strLt_asymm : ∀ a b : Str, strLt a b = true → strLt b a = false
  | a, [], h => by cases a <;> simp [strLt] at h
  | [], _ :: _, _ => by simp [strLt]
  | a :: as, b :: bs, h => by
    by_cases hab : a.toNat < b.toNat
    · have hba : ¬ b.toNat < a.toNat := by omega
      simp [strLt, hba, hab]
    · by_cases hba : b.toNat < a.toNat
      · simp [strLt, hab, hba] at h
      · have h' : strLt as bs = true := by simpa [strLt, hab, hba] using h
        simp [strLt, hab, hba, strLt_asymm as bs h']

theorem strLt_trans : ∀ a b c : Str, strLt a b = true → strLt b c = true → strLt a c = true
  | a, b, [], _, h2 => by cases b <;> simp [strLt] at h2
  | a, [], _ :: _, h1, _ => by cases a <;> simp [strLt] at h1
  | [], _ :: _, _ :: _, _, _ => by simp [strLt]
  | a :: as, b :: bs, c :: cs, h1, h2 => by
    by_cases hab : a.toNat < b.toNat <;> by_cases hbc : b.toNat < c.toNat
    · have hac : a.toNat < c.toNat := by omega
      simp [strLt, hac]
    · by_cases hcb : c.toNat < b.toNat
      · simp [strLt, hab, hbc, hcb] at h2
      · have hac : a.toNat < c.toNat := by omega
        simp [strLt, hac]
    · by_cases hba : b.toNat < a.toNat
      · simp [strLt, hab, hba] at h1
      · have hac : a.toNat < c.toNat := by omega
        simp [strLt, hac]
    · by_cases hba : b.toNat < a.toNat
      · simp [strLt, hab, hba] at h1
      · by_cases hcb : c.toNat < b.toNat
        · simp [strLt, hbc, hcb] at h2
        · have h1' : strLt as bs = true := by simpa [strLt, hab, hba] using h1
          have h2' : strLt bs cs = true := by simpa [strLt, hbc, hcb] using h2
          have hac : ¬ a.toNat < c.toNat := by omega
          have hca : ¬ c.toNat < a.toNat := by omega
          simp [strLt, hac, hca, strLt_trans as bs cs h1' h2']

theorem strLt_connex : ∀ a b : Str, strLt a b = false → strLt b a = false → a = b
  | [], [], _, _ => rfl
  | [], _ :: _, h1, _ => by simp [strLt] at h1
  | _ :: _, [], _, h2 => by simp [strLt] at h2
  | a :: as, b :: bs, h1, h2 => by
    by_cases hab : a.toNat < b.toNat
    · simp [strLt, hab] at h1
    · by_cases hba : b.toNat < a.toNat
      · simp [strLt, hba] at h2
      · have h1' : strLt as bs = false := by simpa [strLt, hab, hba] using h1
        have h2' : strLt bs as = false := by simpa [strLt, hab, hba] using h2
        have hh : a = b := char_eq_of_toNat_eq (by omega)
        rw [hh, strLt_connex as bs h1' h2']

instance : IsTotal Str StrLe :=
  ⟨fun a b => by
    cases h : strLt b a with
    | false => exact Or.inl (by simp [StrLe, strLe, h])
    | true => exact Or.inr (by simp [StrLe, strLe, strLt_asymm b a h])⟩

instance : IsTrans Str StrLe :=
  ⟨fun a b c hab hbc => by
    simp only [StrLe, strLe, Bool.not_eq_true'] at hab hbc ⊢
    cases hca : strLt c a with
    | false => rfl
    | true =>
      exfalso
      cases h1 : strLt a b with
      | true =>
        cases h2 : strLt b c with
        | true =>
          have hac := strLt_trans a b c h1 h2
          rw [strLt_asymm a c hac] at hca
          simp at hca
        | false =>
          have hbceq := strLt_connex b c h2 hbc
          rw [← hbceq, hab] at hca
          simp at hca
      | false =>
        have habeq := strLt_connex a b h1 hab
        rw [habeq, hbc] at hca
        simp at hca⟩

/-! ## Filesystem model

A finite map from absolute paths to inodes.  `broken` stands for a
directory entry whose `stat` fails (a dangling symlink: `readdir` lists
it, `fs.exists`/`fs.stat`/`fs.statSync` follow it and fail). -/

inductive Inode where
  | file (contents : List Nat)
  | dir (entries : List Str)
  | other
  | broken
  deriving DecidableEq

abbrev FS := List (Str × Inode)

def lookupFS (fs : FS) (p : Str) : Option Inode :=
  (fs.find? (fun e => e.1 == p)).map (fun e => e.2)

/-- `fs.exists` (follows symlinks; false on a dangling one). -/
def existsFS (fs : FS) (p : Str) : Bool :=
  match lookupFS fs p with
  | some Inode.broken => false
  | some _ => true
  | none => false

inductive StatKind where
  | fileK
  | dirK
  | otherK
  deriving DecidableEq

/-- `fs.statSync` (and `fs.stat`/`fs.fstat` classification): `none`
models the thrown error (dangling symlink or vanished path). -/
def statSyncKind (fs : FS) (p : Str) : Option StatKind :=
  match lookupFS fs p with
  | some (Inode.file _) => some StatKind.fileK
  | some (Inode.dir _) => some StatKind.dirK
  | some Inode.other => some StatKind.otherK
  | some Inode.broken => none
  | none => none

/-- `stat.size` as reported for an inode (byte size for regular files). -/
def statSizeOf : Inode → Nat
  | Inode.file contents => contents.length
  | _ => 0

/-! ## `String.prototype.replace(/pat/g, replacement)`

The listing templates are instantiated with chained `replace` calls
whose patterns (`#TYPE#`, `#LINK#`, `#TITLE#`, `#PATHNAME#`,
`#LIST_ELEMENTS#`) are literal regexes without capture groups.  Two
JavaScript behaviours matter and are modelled: the replacement string is
interpreted for dollar escapes (`$$` a literal dollar, `$&` the matched
text, a dollar followed by a backquote the part of the subject before
the match, `$` followed by code 39 the part after it; anything else
after a dollar stays literal since there are no capture groups), and
each `replace` call scans the full output of the previous call, so a
later pass rewrites placeholder text introduced by an earlier
replacement. -/

/-- ES `GetSubstitution` for a literal pattern with no capture groups:
expand the dollar escapes of the replacement, given the matched text and
the parts of the subject before and after the match.  (`Char.ofNat 96`
is the backquote, `Char.ofNat 39` the single quote.) -/
def expandDollar (matched before after : Str) : Str → Str
  | [] => []
  | c :: rest =>
    if c = '$' then
      match rest with
      | [] => ['$']
      | d :: rest2 =>
        if d = '$' then '$' :: expandDollar matched before after rest2
        else if d = '&' then matched ++ expandDollar matched before after rest2
        else if d = Char.ofNat 96 then before ++ expandDollar matched before after rest2
        else if d = Char.ofNat 39 then after ++ expandDollar matched before after rest2
        else '$' :: expandDollar matched before after (d :: rest2)
    else c :: expandDollar matched before after rest

/-- Global replace, scanning left to right: at a match emit the expanded
replacement and continue after the matched text (the emitted replacement
is not rescanned within the same pass); `done` is the already-scanned
prefix of the subject, needed by the dollar escapes.  `fuel` bounds the
number of scanning steps; every step consumes at least one subject
character and exactly one unit of fuel, so with `fuel = subject.length`
(as `replaceAll` passes it) the `0` arm is never reached. -/
def replaceAllGo (pat rep : Str) : Nat → Str → Str → Str
  | _, _, [] => []
  | 0, _, s => s
  | fuel + 1, done, c :: cs =>
    if pat ≠ [] ∧ pat.isPrefixOf (c :: cs) = true then
      expandDollar pat done ((c :: cs).drop pat.length) rep
        ++ replaceAllGo pat rep fuel (done ++ pat) ((c :: cs).drop pat.length)
    else
      c :: replaceAllGo pat rep fuel (done ++ [c]) cs

/-- `s.replace(/pat/g, rep)` for a literal, nonempty pattern. -/
def replaceAll (pat rep s : Str) : Str := replaceAllGo pat rep s.length [] s

/-- Whether `pat` matches anywhere in `s`. -/
def hasMatch (pat : Str) : Str → Bool
  | [] => false
  | c :: cs => (decide (pat ≠ []) && pat.isPrefixOf (c :: cs)) || hasMatch pat cs

/-! ## Directory Lister (part_000 lines 314–393) -/

/-- `var listElementTemplate = '<li>#TYPE# <a href="#LINK#">#TITLE#</a></li>';` -/
def listElementTemplate : Str := "<li>#TYPE# <a href=\"#LINK#\">#TITLE#</a></li>".data

/-- One `<li>` entry, exactly as the source builds it:
`listElementTemplate.replace(/#TYPE#/g, ty).replace(/#LINK#/g, link).replace(/#TITLE#/g, title)`. -/
def listElementHtml (ty link title : Str) : Str :=
  replaceAll "#TITLE#".data title
    (replaceAll "#LINK#".data link
      (replaceAll "#TYPE#".data ty listElementTemplate))

/-- The synthetic up entry: type `[D]`, link `./..`, title `..`. -/
def parentEntryHtml : Str := listElementHtml "[D]".data "./..".data "..".data

/-- A directory child entry: type `[D]`, link `'./'+name+'/'`, title `name`. -/
def dirEntryHtml (name : Str) : Str :=
  listElementHtml "[D]".data ("./".data ++ name ++ "/".data) name

/-- A file child entry: type `[F]`, link `'./'+name`, title `name`. -/
def fileEntryHtml (name : Str) : Str :=
  listElementHtml "[F]".data ("./".data ++ name) name

/-- Claim C2's description of a directory entry: the name spliced
verbatim as href `./name/` and title (no replacement-metacharacter
processing). -/
def dirEntryClaimed (name : Str) : Str :=
  "<li>[D] <a href=\"".data ++ ("./".data ++ name ++ "/".data) ++ "\">".data
    ++ name ++ "</a></li>".data

/-- Claim C2's description of a file entry: the name spliced verbatim as
href `./name` and title. -/
def fileEntryClaimed (name : Str) : Str :=
  "<li>[F] <a href=\"".data ++ ("./".data ++ name) ++ "\">".data
    ++ name ++ "</a></li>".data

/-- `if (pathname !== '' && pathname !== '/') listElements += ...`. -/
def upEntryIfNotRoot (pathname : Str) : Str :=
  if pathname ≠ [] ∧ pathname ≠ ['/'] then parentEntryHtml else []

/-- The `files.forEach` classification loop: `fs.statSync` each child of
the listed directory, pushing directories onto `dirsList` and regular
files onto `filesList` (anything else is pushed nowhere).  A `statSync`
throw is an uncaught exception, modelled as `none`. -/
def classifyChildren (fs : FS) (fullPath : Str) : List Str → Option (List Str × List Str)
  | [] => some ([], [])
  | name :: rest =>
    match statSyncKind fs (pathJoin fullPath name) with
    | none => none
    | some k =>
      match classifyChildren fs fullPath rest with
      | none => none
      | some (ds, fls) =>
        match k with
        | StatKind.dirK => some (name :: ds, fls)
        | StatKind.fileK => some (ds, name :: fls)
        | StatKind.otherK => some (ds, fls)

/-- `dirsList.sort()` / `filesList.sort()`: `Array.prototype.sort` with
the default comparator orders by code units; since `StrLe` is total,
transitive and antisymmetric the sorted permutation is unique, so
`List.insertionSort` models it exactly. -/
def jsSort (l : List Str) : List Str := List.insertionSort StrLe l

/-- The rendered `#LIST_ELEMENTS#`: the up entry (source appends it
before classifying), then the sorted directories as `[D]` entries, then
the sorted files as `[F]` entries. -/
def listElementsOf (pathname : Str) (ds fls : List Str) : Str :=
  upEntryIfNotRoot pathname
    ++ ((jsSort ds).map dirEntryHtml).flatten
    ++ ((jsSort fls).map fileEntryHtml).flatten

/-- The `template` string of `listDir` (whitespace-free concatenation,
as in the source). -/
def pageTemplateStr : Str :=
  "<!doctype html><html><head><meta charset=\"utf-8\"><title>Directory \"#PATHNAME#\"</title></head><body><h1>Directory \"#PATHNAME#\"</h1><ul>#LIST_ELEMENTS#</ul></body></html>".data

/-- The full page, exactly as the source builds it:
`template.replace(/#PATHNAME#/g, '/' + pathname).replace(/#LIST_ELEMENTS#/g, listElements)`. -/
def pageTemplate (pathname elements : Str) : Str :=
  replaceAll "#LIST_ELEMENTS#".data elements
    (replaceAll "#PATHNAME#".data ('/' :: pathname) pageTemplateStr)

/-- Outcome of `listDir`. -/
inductive DirResult where
  | crash
  | errResp (status : Nat) (msg : Str)
  | page (html : Str)
  deriving DecidableEq

/-- `listDir` (part_000 lines 314–393): `fs.readdir` error → 500
"Cannot read directory."; a child whose `statSync` throws → uncaught
exception (`crash`, no response); otherwise the 200 page. -/
def listDirModel (fs : FS) (pathname fullPath : Str) : DirResult :=
  match lookupFS fs fullPath with
  | some (Inode.dir children) =>
    match classifyChildren fs fullPath children with
    | none => DirResult.crash
    | some (ds, fls) =>
      DirResult.page (pageTemplate pathname (listElementsOf pathname ds fls))
  | _ => DirResult.errResp 500 "Cannot read directory.".data

/-! ## Responses and the Request Dispatcher (part_000 lines 293–488) -/

/-- Decimal digits of a number, for `'Error '+errNum+'. '+errMsg`. -/
def natDigits (n : Nat) : Str :=
  if h : n < 10 then [Char.ofNat (48 + n)]
  else natDigits (n / 10) ++ [Char.ofNat (48 + n % 10)]
decreasing_by exact Nat.div_lt_self (by omega) (by omega)

structure HttpResponse where
  status : Nat
  contentType : Option Str
  contentLength : Option Nat
  body : List Nat
  deriving DecidableEq

def plainTextCT : Str := "text/plain; charset=utf-8".data

def htmlCT : Str := "text/html; charset=utf-8".data

/-- `tellAboutError` when no headers have been written yet:
`res.writeHead(errNum, text/plain); res.end('Error '+errNum+'. '+errMsg)`. -/
def tellAboutErrorResp (errNum : Nat) (errMsg : Str) : HttpResponse :=
  { status := errNum, contentType := some plainTextCT, contentLength := none,
    body := strBytes ("Error ".data ++ natDigits errNum ++ ". ".data ++ errMsg) }

/-- Filesystem operations a request performs, in order. -/
inductive FsOp where
  | existsCheck (p : Str)
  | fsOpen (p : Str) (fd : Nat)
  | fsFstat (fd : Nat)
  | fsReaddir (p : Str)
  | fsStatSync (p : Str)
  | fsRead (fd : Nat)
  | fsClose (fd : Nat)
  deriving DecidableEq

/-- The descriptor `fs.open(fullPath, 'r', ...)` hands the dispatcher. -/
def dispatcherFd : Nat := 3

/-- The descriptor `fs.createReadStream` opens internally. -/
def streamFd : Nat := 4

/-- The `statSync` calls `listDir` issues, in order, stopping at the
first child whose `statSync` throws. -/
def statTrace (fs : FS) (fullPath : Str) : List Str → List FsOp
  | [] => []
  | n :: rest =>
    match statSyncKind fs (pathJoin fullPath n) with
    | none => [FsOp.fsStatSync (pathJoin fullPath n)]
    | some _ => FsOp.fsStatSync (pathJoin fullPath n) :: statTrace fs fullPath rest

/-- The whole request handler: Path Resolver, `fs.exists`, `fs.open`,
`fs.fstat` (`getStatCallback`), then `openFile` or `listDir`.  Returns
the response (`none` when an uncaught exception ends the request with no
response: malformed percent-encoding, or a child `statSync` throw inside
`listDir`) and the ordered trace of filesystem operations.

`chunks` is the read stream's chunking of the file contents: `openFile`
pipes each `data` chunk through `res.write` ('binary' encoding
round-trips bytes), so the body is their concatenation.  The stream's
own descriptor is auto-closed at end of stream; the dispatcher's
descriptor from `fs.open` is never closed (the source has no `fs.close`
call). -/
def handleRequest (fs : FS) (root raw : Str) (chunks : List Nat → List (List Nat)) :
    Option HttpResponse × List FsOp :=
  match decodedPathOf raw with
  | none => (none, [])
  | some pathname =>
    let fullPath := pathJoin root pathname
    if existsFS fs fullPath then
      match lookupFS fs fullPath with
      | some (Inode.file contents) =>
        (some { status := 200,
                contentType := some (contentTypeFor fullPath),
                contentLength := some (statSizeOf (Inode.file contents)),
                body := (chunks contents).flatten },
         [FsOp.existsCheck fullPath, FsOp.fsOpen fullPath dispatcherFd,
          FsOp.fsFstat dispatcherFd, FsOp.fsOpen fullPath streamFd,
          FsOp.fsRead streamFd, FsOp.fsClose streamFd])
      | some (Inode.dir children) =>
        (match listDirModel fs pathname fullPath with
         | DirResult.crash => none
         | DirResult.errResp n m => some (tellAboutErrorResp n m)
         | DirResult.page html =>
           some { status := 200, contentType := some htmlCT,
                  contentLength := some (strBytes html).length,
                  body := strBytes html },
         [FsOp.existsCheck fullPath, FsOp.fsOpen fullPath dispatcherFd,
          FsOp.fsFstat dispatcherFd, FsOp.fsReaddir fullPath]
           ++ statTrace fs fullPath children)
      | some Inode.other =>
        (some (tellAboutErrorResp 500 "Cannot open this path.".data),
         [FsOp.existsCheck fullPath, FsOp.fsOpen fullPath dispatcherFd,
          FsOp.fsFstat dispatcherFd])
      | _ =>
        -- unreachable when `existsFS` holds; modelled as the open-failure
        -- branch (500 "Cannot open this path.")
        (some (tellAboutErrorResp 500 "Cannot open this path.".data),
         [FsOp.existsCheck fullPath, FsOp.fsOpen fullPath dispatcherFd])
    else
      (some (tellAboutErrorResp 404 "Page not found.".data),
       [FsOp.existsCheck fullPath])

/-! ## The File Streamer's response state machine (part_000 lines
395–448), for the post-headers behaviour: `res.writeHead` throws
`ERR_HTTP_HEADERS_SENT` if headers were already written, which aborts
the calling handler (so `tellAboutError`'s `res.end` line never runs). -/

structure ResState where
  headersSent : Bool
  status : Nat
  statusWrites : Nat
  bodyWritten : List Nat
  ended : Bool
  crashed : Bool
  deriving DecidableEq

def initRes : ResState :=
  { headersSent := false, status := 0, statusWrites := 0,
    bodyWritten := [], ended := false, crashed := false }

/-- `res.writeHead(st, ...)`: writes the status line once; a second call
throws (`crashed`) and changes nothing on the wire. -/
def resWriteHead (s : ResState) (st : Nat) : ResState :=
  if s.headersSent then { s with crashed := true }
  else { s with headersSent := true, status := st, statusWrites := s.statusWrites + 1 }

/-- `tellAboutError` against an arbitrary response state: when headers
are already sent, `res.writeHead` throws and the `res.end` line is never
reached. -/
def tellAboutErrorState (s : ResState) (errNum : Nat) (errMsg : Str) : ResState :=
  if s.headersSent then resWriteHead s errNum
  else
    { resWriteHead s errNum with
      bodyWritten := s.bodyWritten
        ++ strBytes ("Error ".data ++ natDigits errNum ++ ". ".data ++ errMsg),
      ended := true }

/-- Events the read stream can emit after `openFile` wrote the headers. -/
inductive StreamEv where
  | dataChunk (chunk : List Nat)
  | readError
  | readEnd
  deriving DecidableEq

/-- The stream handlers of `openFile`: `data` → `res.write(chunk)`,
`error` → `tellAboutError(500, 'Cannot read file.')`, `end` →
`res.end()`. -/
def streamStep (s : ResState) (ev : StreamEv) : ResState :=
  match ev with
  | StreamEv.dataChunk c => { s with bodyWritten := s.bodyWritten ++ c }
  | StreamEv.readError => tellAboutErrorState s 500 "Cannot read file.".data
  | StreamEv.readEnd => { s with ended := true }

/-- `openFile` after `res.writeHead(200, head)`: the response state at
the end of an arbitrary sequence of stream events. -/
def runOpenFile (events : List StreamEv) : ResState :=
  events.foldl streamStep (resWriteHead initRes 200)

/-! ## Helper lemmas -/

theorem stripLeadingSlashes_eq_dropWhile :
    ∀ s : Str, stripLeadingSlashes s = s.dropWhile (fun c => c == '/')
  | [] => rfl
  | c :: cs => by
    by_cases h : c = '/'
    · have hb : (c == '/') = true := by simp [h]
      simp [stripLeadingSlashes, List.dropWhile, h, hb, stripLeadingSlashes_eq_dropWhile cs]
    · have hb : (c == '/') = false := by simp [h]
      simp [stripLeadingSlashes, List.dropWhile, h, hb]

theorem plusToSpace_eq_map :
    ∀ s : Str, plusToSpace s = s.map (fun c => if c = '+' then ' ' else c)
  | [] => rfl
  | c :: cs => by simp [plusToSpace, plusToSpace_eq_map cs]

theorem mimeScan_no_match :
    ∀ (tbl : List (Str × Str)) (e : Str) (acc : Option Str),
      (∀ kv ∈ tbl, kv.1 ≠ e) → mimeScan tbl e acc = acc
  | [], _, _, _ => rfl
  | kv :: rest, e, acc, h => by
    have hk : kv.1 ≠ e := h kv (by simp)
    have hr := mimeScan_no_match rest e acc (fun k hm => h k (by simp [hm]))
    simp [mimeScan, hk, hr]

theorem extname_cases (p : Str) : extname p = claimedExt p ∨ extname p = [] := by
  unfold extname claimedExt
  by_cases hb : basenameOf p = ['.', '.']
  · simp [hb]
  · simp only [hb, if_false]
    cases hf : fromLastDot (basenameOf p) with
    | none => simp
    | some s =>
      by_cases hl : s.length = (basenameOf p).length
      · simp [hl]
      · simp [hl]

/-- `dirsList` as a function of the `readdir` result: the children whose
stat classifies them as directories, in `readdir` order. -/
def dirChildren (fs : FS) (fullPath : Str) (children : List Str) : List Str :=
  children.filter (fun n => statSyncKind fs (pathJoin fullPath n) == some StatKind.dirK)

/-- `filesList`: the children whose stat classifies them as regular
files, in `readdir` order. -/
def fileChildren (fs : FS) (fullPath : Str) (children : List Str) : List Str :=
  children.filter (fun n => statSyncKind fs (pathJoin fullPath n) == some StatKind.fileK)

theorem classifyChildren_eq (fs : FS) (fullPath : Str) :
    ∀ children : List Str,
      (∀ n ∈ children, (statSyncKind fs (pathJoin fullPath n)).isSome) →
      classifyChildren fs fullPath children =
        some (dirChildren fs fullPath children, fileChildren fs fullPath children)
  | [], _ => rfl
  | name :: rest, h => by
    have hn := h name (by simp)
    have hr := classifyChildren_eq fs fullPath rest (fun n hm => h n (by simp [hm]))
    cases hk : statSyncKind fs (pathJoin fullPath name) with
    | none => rw [hk] at hn; simp at hn
    | some k =>
      cases k <;> simp [classifyChildren, hk, hr, dirChildren, fileChildren, List.filter_cons]

/-! ## Lemmas about the global replace: how a clean single-placeholder
substitution behaves.  All the template patterns start with `#`, so a
match can never start inside a `#`-free region, and a replacement free
of `$` is inserted verbatim. -/

theorem expandDollar_no_dollar (matched before after : Str) :
    ∀ rep : Str, '$' ∉ rep → expandDollar matched before after rep = rep
  | [], _ => rfl
  | c :: rest, h => by
    have hc : c ≠ '$' := by
      intro he
      subst he
      exact h (by simp)
    have hrest : '$' ∉ rest := fun hm => h (List.mem_cons_of_mem c hm)
    rw [expandDollar.eq_def]
    simp only []
    rw [if_neg hc]
    rw [expandDollar_no_dollar matched before after rest hrest]

theorem isPrefixOf_self_append : ∀ (l s : Str), l.isPrefixOf (l ++ s) = true
  | [], s => by cases s <;> rfl
  | c :: l2, s => by simp [List.isPrefixOf, isPrefixOf_self_append l2 s]

theorem replaceAllGo_nomatch (pat rep : Str) :
    ∀ (s : Str), hasMatch pat s = false → ∀ (fuel : Nat) (done : Str),
      replaceAllGo pat rep fuel done s = s
  | [], _, fuel, _ => by cases fuel <;> rfl
  | _ :: _, _, 0, _ => rfl
  | c :: cs, h, fuel + 1, done => by
    by_cases hp : pat ≠ [] ∧ pat.isPrefixOf (c :: cs) = true
    · exfalso
      have hm : hasMatch pat (c :: cs) = true := by simp [hasMatch, hp.1, hp.2]
      rw [hm] at h
      exact Bool.noConfusion h
    · have h2 : hasMatch pat cs = false := by
        cases hm : hasMatch pat cs with
        | false => rfl
        | true =>
          exfalso
          have hm2 : hasMatch pat (c :: cs) = true := by simp [hasMatch, hm]
          rw [hm2] at h
          exact Bool.noConfusion h
      rw [replaceAllGo.eq_def]
      simp only []
      rw [if_neg hp]
      rw [replaceAllGo_nomatch pat rep cs h2 fuel (done ++ [c])]

theorem replaceAllGo_skip (ps rep : Str) :
    ∀ (u : Str), (∀ c ∈ u, c ≠ '#') → ∀ (fuel : Nat) (done s : Str),
      replaceAllGo ('#' :: ps) rep (u.length + fuel) done (u ++ s) =
        u ++ replaceAllGo ('#' :: ps) rep fuel (done ++ u) s
  | [], _, fuel, done, s => by simp
  | c :: u2, hu, fuel, done, s => by
    have hc : c ≠ '#' := hu c (by simp)
    have hcond : ¬(('#' :: ps) ≠ [] ∧ ('#' :: ps).isPrefixOf (c :: (u2 ++ s)) = true) := by
      intro hcon
      have hpre := hcon.2
      simp [List.isPrefixOf] at hpre
      exact hc hpre.1.symm
    have hlen : (c :: u2).length + fuel = (u2.length + fuel) + 1 := by
      simp only [List.length_cons]
      omega
    rw [hlen]
    show replaceAllGo ('#' :: ps) rep ((u2.length + fuel) + 1) done (c :: (u2 ++ s)) = _
    rw [replaceAllGo.eq_def]
    simp only []
    rw [if_neg hcond]
    rw [replaceAllGo_skip ps rep u2 (fun x hx => hu x (by simp [hx])) fuel (done ++ [c]) s]
    simp

theorem replaceAllGo_match (pat rep : Str) (hne : pat ≠ []) (fuel : Nat) (done v : Str) :
    replaceAllGo pat rep (fuel + 1) done (pat ++ v) =
      expandDollar pat done v rep ++ replaceAllGo pat rep fuel (done ++ pat) v := by
  cases pat with
  | nil => exact absurd rfl hne
  | cons p ps =>
    have hpre : (p :: ps).isPrefixOf (p :: (ps ++ v)) = true :=
      isPrefixOf_self_append (p :: ps) v
    have hdrop : (p :: (ps ++ v)).drop (p :: ps).length = v :=
      List.drop_left (p :: ps) v
    show replaceAllGo (p :: ps) rep (fuel + 1) done (p :: (ps ++ v)) = _
    rw [replaceAllGo.eq_def]
    simp only []
    rw [if_pos ⟨hne, hpre⟩, hdrop]

/-- A single clean substitution: if the pattern occurs exactly once (the
prefix is `#`-free, the tail matches nowhere) and the replacement has no
dollar escape, the global replace is a verbatim splice. -/
theorem replace_single_clean (ps rep u v : Str)
    (hu : ∀ c ∈ u, c ≠ '#')
    (hrep : '$' ∉ rep)
    (hv : hasMatch ('#' :: ps) v = false) :
    replaceAll ('#' :: ps) rep (u ++ ('#' :: ps) ++ v) = u ++ rep ++ v := by
  unfold replaceAll
  have hlen : (u ++ ('#' :: ps) ++ v).length = u.length + ((ps.length + v.length) + 1) := by
    simp only [List.length_append, List.length_cons]
    omega
  rw [hlen, List.append_assoc]
  rw [replaceAllGo_skip ps rep u hu ((ps.length + v.length) + 1) [] (('#' :: ps) ++ v)]
  rw [replaceAllGo_match ('#' :: ps) rep (by simp) (ps.length + v.length) ([] ++ u) v]
  rw [replaceAllGo_nomatch ('#' :: ps) rep v hv]
  rw [expandDollar_no_dollar _ _ _ rep hrep]
  simp [List.append_assoc]

theorem hashFree_append {a b : Str} (ha : ∀ c ∈ a, c ≠ '#') (hb : ∀ c ∈ b, c ≠ '#') :
    ∀ c ∈ a ++ b, c ≠ '#' := by
  intro c hc
  rcases List.mem_append.mp hc with h | h
  · exact ha c h
  · exact hb c h

theorem not_dollar_append {a b : Str} (ha : '$' ∉ a) (hb : '$' ∉ b) : '$' ∉ a ++ b := by
  intro hm
  rcases List.mem_append.mp hm with h | h
  · exact ha h
  · exact hb h

/-- For a name free of the template metacharacters `#` and `$`, the
rendered `[D]` entry is the verbatim splice with href `./name/`. -/
theorem dirEntryHtml_clean (name : Str) (h1 : '#' ∉ name) (h2 : '$' ∉ name) :
    dirEntryHtml name = dirEntryClaimed name := by
  have h1f : ∀ c ∈ name, c ≠ '#' := fun c hc he => h1 (he ▸ hc)
  unfold dirEntryHtml listElementHtml
  rw [show replaceAll "#TYPE#".data "[D]".data listElementTemplate =
      "<li>[D] <a href=\"".data ++ ('#' :: "LINK#".data) ++ "\">#TITLE#</a></li>".data from
      by decide]
  rw [show ("#LINK#".data : Str) = '#' :: "LINK#".data from by decide]
  rw [replace_single_clean "LINK#".data ("./".data ++ name ++ "/".data)
        "<li>[D] <a href=\"".data "\">#TITLE#</a></li>".data (by decide)
        (not_dollar_append (not_dollar_append (by decide) h2) (by decide)) (by decide)]
  rw [show ("#TITLE#".data : Str) = '#' :: "TITLE#".data from by decide]
  rw [show ("\">#TITLE#</a></li>".data : Str) =
      "\">".data ++ ('#' :: "TITLE#".data) ++ "</a></li>".data from by decide]
  rw [show "<li>[D] <a href=\"".data ++ ("./".data ++ name ++ "/".data) ++
        ("\">".data ++ ('#' :: "TITLE#".data) ++ "</a></li>".data) =
      ("<li>[D] <a href=\"".data ++ ("./".data ++ name ++ "/".data) ++ "\">".data)
        ++ ('#' :: "TITLE#".data) ++ "</a></li>".data from by simp [List.append_assoc]]
  rw [replace_single_clean "TITLE#".data name
        ("<li>[D] <a href=\"".data ++ ("./".data ++ name ++ "/".data) ++ "\">".data)
        "</a></li>".data
        (hashFree_append (hashFree_append (by decide)
          (hashFree_append (hashFree_append (by decide) h1f) (by decide))) (by decide))
        h2 (by decide)]
  simp [dirEntryClaimed, List.append_assoc]

/-- For a name free of the template metacharacters `#` and `$`, the
rendered `[F]` entry is the verbatim splice with href `./name`. -/
theorem fileEntryHtml_clean (name : Str) (h1 : '#' ∉ name) (h2 : '$' ∉ name) :
    fileEntryHtml name = fileEntryClaimed name := by
  have h1f : ∀ c ∈ name, c ≠ '#' := fun c hc he => h1 (he ▸ hc)
  unfold fileEntryHtml listElementHtml
  rw [show replaceAll "#TYPE#".data "[F]".data listElementTemplate =
      "<li>[F] <a href=\"".data ++ ('#' :: "LINK#".data) ++ "\">#TITLE#</a></li>".data from
      by decide]
  rw [show ("#LINK#".data : Str) = '#' :: "LINK#".data from by decide]
  rw [replace_single_clean "LINK#".data ("./".data ++ name)
        "<li>[F] <a href=\"".data "\">#TITLE#</a></li>".data (by decide)
        (not_dollar_append (by decide) h2) (by decide)]
  rw [show ("#TITLE#".data : Str) = '#' :: "TITLE#".data from by decide]
  rw [show ("\">#TITLE#</a></li>".data : Str) =
      "\">".data ++ ('#' :: "TITLE#".data) ++ "</a></li>".data from by decide]
  rw [show "<li>[F] <a href=\"".data ++ ("./".data ++ name) ++
        ("\">".data ++ ('#' :: "TITLE#".data) ++ "</a></li>".data) =
      ("<li>[F] <a href=\"".data ++ ("./".data ++ name) ++ "\">".data)
        ++ ('#' :: "TITLE#".data) ++ "</a></li>".data from by simp [List.append_assoc]]
  rw [replace_single_clean "TITLE#".data name
        ("<li>[F] <a href=\"".data ++ ("./".data ++ name) ++ "\">".data)
        "</a></li>".data
        (hashFree_append (hashFree_append (by decide)
          (hashFree_append (by decide) h1f)) (by decide))
        h2 (by decide)]
  simp [fileEntryClaimed, List.append_assoc]

/-! ## Claim C4 — MIME lookup case-insensitivity (code bug)

The table declaration says `// case insensitive`, and the spec requires
`.JPG` to resolve, but the lookup loop compares with the case-sensitive
`ext == path.extname(fullPath)`, so upper-case extensions miss the table
and fall through to `application/octet-stream`. -/

/-- Claim C4 (code_bug evidence): `/image.PNG` and `/photo.JPG` resolve
to the fallback type, not to their table entries, so the `Content-Type`
for `/image.PNG` differs from the one for `/image.png`. -/
theorem mime_lookup_is_case_sensitive :
    contentTypeFor "/image.PNG".data = fallbackType ∧
    contentTypeFor "/image.png".data = "image/png".data ∧
    contentTypeFor "/photo.JPG".data = fallbackType ∧
    contentTypeFor "/photo.jpg".data = "image/jpeg".data ∧
    contentTypeFor "/image.PNG".data ≠ contentTypeFor "/image.png".data := by
  exact ⟨rfl, rfl, rfl, rfl, by decide⟩

/-! ## Claim C5 — unknown extensions fall back to `application/octet-stream` -/

/-- Claim C5: whenever the extension in the claim's sense (the suffix of
the final segment from its last dot, empty when there is no dot) matches
no entry of the MIME table, the resolved content type is the fallback
`application/octet-stream`; the resolution is total.  (`path.extname`
yields either exactly that suffix or the empty string, and neither is a
table key under the hypothesis.) -/
theorem unknown_extension_yields_fallback (p : Str)
    (h : claimedExt p ∉ contentTypes.map Prod.fst) :
    contentTypeFor p = fallbackType := by
  have hnotin : extname p ∉ contentTypes.map Prod.fst := by
    rcases extname_cases p with he | he
    · rw [he]; exact h
    · rw [he]; decide
  have hne : ∀ kv ∈ contentTypes, kv.1 ≠ extname p := by
    intro kv hkv heq
    exact hnotin (heq ▸ List.mem_map_of_mem Prod.fst hkv)
  unfold contentTypeFor
  rw [mimeScan_no_match contentTypes (extname p) none hne]

/-- Witness for C5 at the concrete path `/file.xyz`. -/
theorem unknown_extension_yields_fallback_witness :
    claimedExt "/file.xyz".data ∉ contentTypes.map Prod.fst ∧
    contentTypeFor "/file.xyz".data = fallbackType :=
  ⟨by decide, unknown_extension_yields_fallback "/file.xyz".data (by decide)⟩

/-! ## Claim C6 — order of the Path Resolver steps (corrected)

The source computes `decodeURIComponent(pathname.split('+').join(' '))`:
the `+`→space replacement runs *before* percent-decoding, while the
claim words it the other way around.  The two orders differ on `%2B`. -/

/-- Counterexample to C6 as stated: on the raw path `/%2B` the program
decodes to `"+"` (replace `+` first — there is none — then decode),
while the claim's order (decode to `+`, then replace) yields `" "`. -/
theorem path_resolver_order_counterexample :
    decodedPathOf "/%2B".data ≠ decodedPathClaimed "/%2B".data := by
  decide

/-- Claim C6 as amended: the decoded path replaces every literal `+`
with a space first, then percent-decodes, then strips all leading `/`
characters; the resolved path joins the root with it using `path.join`
semantics. -/
theorem path_resolver_amended (root raw : Str) :
    decodedPathOf raw = decodedPathAmended raw ∧
    resolvePath root raw = (decodedPathAmended raw).map (pathJoin root) := by
  have h : decodedPathOf raw = decodedPathAmended raw := by
    unfold decodedPathOf decodedPathAmended
    rw [plusToSpace_eq_map]
    cases percentDecode (raw.map fun c => if c = '+' then ' ' else c) with
    | none => rfl
    | some s => simp [stripLeadingSlashes_eq_dropWhile]
  exact ⟨h, by unfold resolvePath; rw [h]⟩

/-! ## Concrete example filesystems (shared by the witnesses and
counterexamples below) -/

/-- A root with one file (`hi`) and one empty subdirectory. -/
def fsServe : FS :=
  [("/srv".data, Inode.dir ["a.txt".data, "sub".data]),
   ("/srv/a.txt".data, Inode.file [104, 105]),
   ("/srv/sub".data, Inode.dir [])]

/-- A directory with two files and two subdirectories, listed out of
order by `readdir`. -/
def fsList : FS :=
  [("/srv/sub".data, Inode.dir ["b.txt".data, "d2".data, "a.txt".data, "d1".data]),
   ("/srv/sub/b.txt".data, Inode.file [1]),
   ("/srv/sub/d2".data, Inode.dir []),
   ("/srv/sub/a.txt".data, Inode.file [2]),
   ("/srv/sub/d1".data, Inode.dir [])]

/-- A directory holding a healthy file and a dangling symlink: `readdir`
lists both, `statSync` on the symlink throws. -/
def fsStatFail : FS :=
  [("/r/d".data, Inode.dir ["ok".data, "dangling".data]),
   ("/r/d/ok".data, Inode.file [7]),
   ("/r/d/dangling".data, Inode.broken)]

/-- A directory holding a single file whose name contains the template
placeholder `#TITLE#` (a legal filename). -/
def fsMeta : FS :=
  [("/r/m".data, Inode.dir ["x#TITLE#".data]),
   ("/r/m/x#TITLE#".data, Inode.file [1])]

/-- Like `fsStatFail` but for C10: a file plus a dangling symlink. -/
def fsDangling : FS :=
  [("/r/e".data, Inode.dir ["f.txt".data, "ghost".data]),
   ("/r/e/f.txt".data, Inode.file [3]),
   ("/r/e/ghost".data, Inode.broken)]

/-- `fsDangling` with the dangling symlink removed. -/
def fsNoGhost : FS :=
  [("/r/e".data, Inode.dir ["f.txt".data]),
   ("/r/e/f.txt".data, Inode.file [3])]

/-- A directory holding a socket (stat succeeds, neither file nor
directory) next to a regular file. -/
def fsOther : FS :=
  [("/r/g".data, Inode.dir ["sock".data, "h.txt".data]),
   ("/r/g/sock".data, Inode.other),
   ("/r/g/h.txt".data, Inode.file [9])]

/-- One-chunk stream delivery. -/
def oneChunk (b : List Nat) : List (List Nat) := [b]

/-! ## Claim C1 — files are served verbatim with stat-reported length -/

/-- Claim C1: a request path resolving to an existing regular file is
answered with status 200, `Content-Length` equal to the stat-reported
size, and a body equal to the file's exact bytes (the stream's chunks
concatenate to the file contents). -/
theorem file_request_serves_exact_bytes (fs : FS) (root raw pathname : Str)
    (contents : List Nat) (chunks : List Nat → List (List Nat))
    (hdec : decodedPathOf raw = some pathname)
    (hfile : lookupFS fs (pathJoin root pathname) = some (Inode.file contents))
    (hchunks : (chunks contents).flatten = contents) :
    ∃ resp ops, handleRequest fs root raw chunks = (some resp, ops) ∧
      resp.status = 200 ∧
      resp.contentLength = some (statSizeOf (Inode.file contents)) ∧
      resp.contentType = some (contentTypeFor (pathJoin root pathname)) ∧
      resp.body = contents := by
  have hex : existsFS fs (pathJoin root pathname) = true := by
    unfold existsFS; rw [hfile]
  have heq : handleRequest fs root raw chunks =
      (some { status := 200,
              contentType := some (contentTypeFor (pathJoin root pathname)),
              contentLength := some (statSizeOf (Inode.file contents)),
              body := (chunks contents).flatten },
       [FsOp.existsCheck (pathJoin root pathname),
        FsOp.fsOpen (pathJoin root pathname) dispatcherFd,
        FsOp.fsFstat dispatcherFd,
        FsOp.fsOpen (pathJoin root pathname) streamFd,
        FsOp.fsRead streamFd, FsOp.fsClose streamFd]) := by
    simp only [handleRequest, hdec, hex, if_true, hfile]
  exact ⟨_, _, heq, rfl, rfl, rfl, hchunks⟩

/-- Witness for C1: serving `/a.txt` (bytes `hi`) from `fsServe`. -/
theorem file_request_serves_exact_bytes_witness :
    decodedPathOf "/a.txt".data = some "a.txt".data ∧
    lookupFS fsServe (pathJoin "/srv".data "a.txt".data) = some (Inode.file [104, 105]) ∧
    (oneChunk [104, 105]).flatten = [104, 105] ∧
    (∃ resp ops, handleRequest fsServe "/srv".data "/a.txt".data oneChunk = (some resp, ops) ∧
      resp.status = 200 ∧
      resp.contentLength = some (statSizeOf (Inode.file [104, 105])) ∧
      resp.contentType = some (contentTypeFor (pathJoin "/srv".data "a.txt".data)) ∧
      resp.body = [104, 105]) :=
  ⟨by decide, by decide, by decide,
   file_request_serves_exact_bytes fsServe "/srv".data "/a.txt".data "a.txt".data
     [104, 105] oneChunk (by decide) (by decide) (by decide)⟩

/-! ## Claim C3 — nonexistent paths get a 404 and nothing else happens -/

/-- Claim C3: when the resolved path does not exist, the response is a
404 with a plain-text body containing "Page not found.", and the
existence check is the only filesystem operation the request performs
(no open, stat, listing or streaming work follows). -/
theorem missing_path_404_no_fs_work (fs : FS) (root raw pathname : Str)
    (chunks : List Nat → List (List Nat))
    (hdec : decodedPathOf raw = some pathname)
    (hex : existsFS fs (pathJoin root pathname) = false) :
    ∃ resp, handleRequest fs root raw chunks =
        (some resp, [FsOp.existsCheck (pathJoin root pathname)]) ∧
      resp.status = 404 ∧
      resp.contentType = some plainTextCT ∧
      ∃ pre suf, resp.body = pre ++ strBytes "Page not found.".data ++ suf := by
  refine ⟨tellAboutErrorResp 404 "Page not found.".data, ?_, rfl, rfl,
    strBytes ("Error ".data ++ natDigits 404 ++ ". ".data), [], ?_⟩
  · unfold handleRequest
    rw [hdec]
    simp only [hex, Bool.false_eq_true, if_false]
  · simp [tellAboutErrorResp, strBytes]

/-- Witness for C3: requesting `/missing` against `fsServe`. -/
theorem missing_path_404_no_fs_work_witness :
    decodedPathOf "/missing".data = some "missing".data ∧
    existsFS fsServe (pathJoin "/srv".data "missing".data) = false ∧
    (∃ resp, handleRequest fsServe "/srv".data "/missing".data oneChunk =
        (some resp, [FsOp.existsCheck (pathJoin "/srv".data "missing".data)]) ∧
      resp.status = 404 ∧
      resp.contentType = some plainTextCT ∧
      ∃ pre suf, resp.body = pre ++ strBytes "Page not found.".data ++ suf) :=
  ⟨by decide, by decide,
   missing_path_404_no_fs_work fsServe "/srv".data "/missing".data "missing".data
     oneChunk (by decide) (by decide)⟩

/-! ## Claim C2 — listing structure (corrected)

The parent entry, the directory-before-file order and the per-group
sorting are as claimed, but the per-entry rendering is not a verbatim
splice: the child name is used as a `String.replace` *replacement
string* (so its dollar escapes are expanded), and the `#LINK#` pass runs
before the `#TITLE#` pass, so a name containing `#TITLE#` also rewrites
the href the earlier pass produced.  The claim as stated is therefore
false for names containing those metacharacters; for names free of `#`
and `$` the rendering is the claimed verbatim splice. -/

set_option maxRecDepth 20000 in
/-- Counterexample to C2 as stated: the file named `x#TITLE#` is
rendered with href `./xx#TITLE#` — the `#TITLE#` pass rewrites the
occurrence the `#LINK#` pass inserted into the href — not `./x#TITLE#`
as the claim requires, and the generated listing of `/r/m` contains
exactly that corrupted entry. -/
theorem listing_entry_href_corrupted :
    fileEntryHtml "x#TITLE#".data =
      "<li>[F] <a href=\"./xx#TITLE#\">x#TITLE#</a></li>".data ∧
    fileEntryHtml "x#TITLE#".data ≠ fileEntryClaimed "x#TITLE#".data ∧
    listDirModel fsMeta "m".data "/r/m".data =
      DirResult.page (pageTemplate "m".data
        (parentEntryHtml ++ fileEntryHtml "x#TITLE#".data)) :=
  ⟨by decide, by decide, by decide⟩

/-- Claim C2 as amended: for a directory whose children all stat
successfully and whose names are free of the template metacharacters
`#` and `$`, the listing is the page template around: the parent (`..`)
entry exactly when the decoded path is neither empty nor `/`, then the
directory-classified children as `[D]` entries with href `./name/`,
sorted ascending, then the file-classified children as `[F]` entries
with href `./name`, sorted ascending. -/
theorem dir_listing_structure_clean (fs : FS) (pathname fullPath : Str) (children : List Str)
    (hdir : lookupFS fs fullPath = some (Inode.dir children))
    (hok : ∀ n ∈ children, (statSyncKind fs (pathJoin fullPath n)).isSome)
    (hclean : ∀ n ∈ children, '#' ∉ n ∧ '$' ∉ n) :
    ∃ ds fls,
      ds.Perm (dirChildren fs fullPath children) ∧ List.Sorted StrLe ds ∧
      fls.Perm (fileChildren fs fullPath children) ∧ List.Sorted StrLe fls ∧
      listDirModel fs pathname fullPath =
        DirResult.page (pageTemplate pathname
          ((if pathname ≠ [] ∧ pathname ≠ ['/'] then parentEntryHtml else [])
            ++ (ds.map dirEntryClaimed).flatten
            ++ (fls.map fileEntryClaimed).flatten)) := by
  refine ⟨jsSort (dirChildren fs fullPath children), jsSort (fileChildren fs fullPath children),
    List.perm_insertionSort StrLe _, List.sorted_insertionSort StrLe _,
    List.perm_insertionSort StrLe _, List.sorted_insertionSort StrLe _, ?_⟩
  have hmapd : (jsSort (dirChildren fs fullPath children)).map dirEntryHtml
      = (jsSort (dirChildren fs fullPath children)).map dirEntryClaimed := by
    apply List.map_congr_left
    intro n hn
    have hmem : n ∈ children :=
      List.mem_of_mem_filter
        ((List.perm_insertionSort StrLe (dirChildren fs fullPath children)).mem_iff.mp hn)
    exact dirEntryHtml_clean n (hclean n hmem).1 (hclean n hmem).2
  have hmapf : (jsSort (fileChildren fs fullPath children)).map fileEntryHtml
      = (jsSort (fileChildren fs fullPath children)).map fileEntryClaimed := by
    apply List.map_congr_left
    intro n hn
    have hmem : n ∈ children :=
      List.mem_of_mem_filter
        ((List.perm_insertionSort StrLe (fileChildren fs fullPath children)).mem_iff.mp hn)
    exact fileEntryHtml_clean n (hclean n hmem).1 (hclean n hmem).2
  simp only [listDirModel, hdir, classifyChildren_eq fs fullPath children hok]
  simp only [listElementsOf, upEntryIfNotRoot]
  rw [hmapd, hmapf]

/-- Witness for the amended C2: listing `/srv/sub` of `fsList` (request
path `sub`, metacharacter-free children out of `readdir` order, two
directories and two files). -/
theorem dir_listing_structure_clean_witness :
    lookupFS fsList "/srv/sub".data =
      some (Inode.dir ["b.txt".data, "d2".data, "a.txt".data, "d1".data]) ∧
    (∀ n ∈ ["b.txt".data, "d2".data, "a.txt".data, "d1".data],
      (statSyncKind fsList (pathJoin "/srv/sub".data n)).isSome) ∧
    (∀ n ∈ ["b.txt".data, "d2".data, "a.txt".data, "d1".data], '#' ∉ n ∧ '$' ∉ n) ∧
    (∃ ds fls,
      ds.Perm (dirChildren fsList "/srv/sub".data
        ["b.txt".data, "d2".data, "a.txt".data, "d1".data]) ∧ List.Sorted StrLe ds ∧
      fls.Perm (fileChildren fsList "/srv/sub".data
        ["b.txt".data, "d2".data, "a.txt".data, "d1".data]) ∧ List.Sorted StrLe fls ∧
      listDirModel fsList "sub".data "/srv/sub".data =
        DirResult.page (pageTemplate "sub".data
          ((if "sub".data ≠ ([] : Str) ∧ "sub".data ≠ ['/'] then parentEntryHtml else [])
            ++ (ds.map dirEntryClaimed).flatten
            ++ (fls.map fileEntryClaimed).flatten))) :=
  ⟨by decide, by decide, by decide,
   dir_listing_structure_clean fsList "sub".data "/srv/sub".data
     ["b.txt".data, "d2".data, "a.txt".data, "d1".data] (by decide) (by decide) (by decide)⟩

/-! ## Claim C7 — a child stat failure aborts the whole listing (code bug)

The spec demands that a child whose stat fails be omitted or its error
propagated as the listing's error response, but `listDir` calls
`fs.statSync` with no `try`/`catch` inside the `readdir` callback: the
throw is an uncaught exception, the listing dies and no response of any
kind is written. -/

/-- Claim C7 (code_bug evidence): listing a directory that contains a
dangling symlink neither omits the child nor returns an error response —
the handler crashes and the request gets no response at all. -/
theorem child_stat_throw_aborts_listing :
    listDirModel fsStatFail "d".data "/r/d".data = DirResult.crash ∧
    (handleRequest fsStatFail "/r".data "/d".data oneChunk).1 = none := by
  decide

/-! ## Claim C8 — single committed status (corrected)

Once `openFile` has written the 200 headers, a stream error makes the
code call `tellAboutError(500, ...)`, whose `res.writeHead` throws
`ERR_HTTP_HEADERS_SENT`: nothing further is written and the committed
status stays 200.  But the claim's opening — *every* request writes
exactly one response — fails: a request whose listing crashes on a child
stat writes no response at all. -/

/-- Counterexample to C8 as stated: the processing of a request for a
directory containing a dangling symlink writes no response (zero status
lines), not exactly one. -/
theorem request_with_zero_responses :
    (handleRequest fsDangling "/r".data "/e".data oneChunk).1 = none := by
  decide

/-- Invariant step: once headers are sent, every stream event preserves
the committed status line. -/
theorem foldl_streamStep_headers (events : List StreamEv) :
    ∀ s : ResState, s.headersSent = true →
      (events.foldl streamStep s).headersSent = true ∧
      (events.foldl streamStep s).status = s.status ∧
      (events.foldl streamStep s).statusWrites = s.statusWrites := by
  induction events with
  | nil => exact fun s hs => ⟨hs, rfl, rfl⟩
  | cons ev rest ih =>
    intro s hs
    simp only [List.foldl_cons]
    have hstep : (streamStep s ev).headersSent = true ∧
        (streamStep s ev).status = s.status ∧
        (streamStep s ev).statusWrites = s.statusWrites := by
      cases ev with
      | dataChunk c => exact ⟨hs, rfl, rfl⟩
      | readError => simp [streamStep, tellAboutErrorState, resWriteHead, hs]
      | readEnd => exact ⟨hs, rfl, rfl⟩
    have := ih (streamStep s ev) hstep.1
    exact ⟨this.1, by rw [this.2.1, hstep.2.1], by rw [this.2.2, hstep.2.2]⟩

/-- Claim C8 as amended: the File Streamer writes its status line
exactly once; after the 200 headers are written, no sequence of stream
events — read errors included — performs a second status write or
changes the committed 200 (the error handler's renewed `writeHead`
throws and writes nothing). -/
theorem streamer_commits_single_status (events : List StreamEv) :
    (runOpenFile events).status = 200 ∧
    (runOpenFile events).statusWrites = 1 ∧
    (runOpenFile events).headersSent = true := by
  have h0 : (resWriteHead initRes 200).headersSent = true := rfl
  have h := foldl_streamStep_headers events (resWriteHead initRes 200) h0
  exact ⟨h.2.1, h.2.2, h.1⟩

/-! ## Claim C9 — descriptor release (code bug)

The dispatcher opens a descriptor with `fs.open` purely to `fstat` it;
the source contains no `fs.close` call, so that descriptor is never
released (only the read stream's internal descriptor is auto-closed). -/

/-- Claim C9 (code_bug evidence): serving the existing file `/a.txt`
opens the dispatcher's descriptor and the trace contains no close for
it (while the stream's own descriptor is opened and closed). -/
theorem dispatcher_fd_never_closed :
    FsOp.fsOpen "/srv/a.txt".data dispatcherFd ∈
      (handleRequest fsServe "/srv".data "/a.txt".data oneChunk).2 ∧
    FsOp.fsClose dispatcherFd ∉
      (handleRequest fsServe "/srv".data "/a.txt".data oneChunk).2 ∧
    FsOp.fsClose streamFd ∈
      (handleRequest fsServe "/srv".data "/a.txt".data oneChunk).2 := by
  decide

/-! ## Claim C10 — non-file, non-directory children (corrected)

Children whose stat succeeds with some other inode type (socket, device,
FIFO) are pushed onto neither list and are silently omitted; but a
dangling symlink — listed by the claim — makes `statSync` throw and the
whole listing crash, so its presence does change the outcome. -/

set_option maxRecDepth 20000 in
/-- Counterexample to C10 as stated: with a dangling-symlink child the
listing crashes (no 200 page at all), while without it the same
directory produces a 200 page — the child is not silently omitted. -/
theorem dangling_symlink_not_omitted :
    listDirModel fsDangling "e".data "/r/e".data = DirResult.crash ∧
    listDirModel fsNoGhost "e".data "/r/e".data =
      DirResult.page (pageTemplate "e".data
        (listElementsOf "e".data [] ["f.txt".data])) := by
  exact ⟨by decide, by decide⟩

/-- Claim C10 as amended: a child whose stat *succeeds* and reports
neither a regular file nor a directory appears in neither the
directory-name list nor the file-name list, and the listing is still the
200 page built from those lists. -/
theorem other_inode_child_omitted (fs : FS) (pathname fullPath : Str)
    (children : List Str) (name : Str)
    (hdir : lookupFS fs fullPath = some (Inode.dir children))
    (hok : ∀ n ∈ children, (statSyncKind fs (pathJoin fullPath n)).isSome)
    (hother : statSyncKind fs (pathJoin fullPath name) = some StatKind.otherK) :
    name ∉ dirChildren fs fullPath children ∧
    name ∉ fileChildren fs fullPath children ∧
    listDirModel fs pathname fullPath =
      DirResult.page (pageTemplate pathname
        (listElementsOf pathname (dirChildren fs fullPath children)
          (fileChildren fs fullPath children))) := by
  refine ⟨?_, ?_, ?_⟩
  · intro hmem
    have hcond := (List.mem_filter.mp hmem).2
    rw [hother] at hcond
    simp at hcond
  · intro hmem
    have hcond := (List.mem_filter.mp hmem).2
    rw [hother] at hcond
    simp at hcond
  · simp only [listDirModel, hdir, classifyChildren_eq fs fullPath children hok]

/-- Witness for the amended C10: the socket child `sock` of `/r/g` in
`fsOther` lands in neither list and the listing is still served. -/
theorem other_inode_child_omitted_witness :
    lookupFS fsOther "/r/g".data = some (Inode.dir ["sock".data, "h.txt".data]) ∧
    (∀ n ∈ ["sock".data, "h.txt".data],
      (statSyncKind fsOther (pathJoin "/r/g".data n)).isSome) ∧
    statSyncKind fsOther (pathJoin "/r/g".data "sock".data) = some StatKind.otherK ∧
    ("sock".data ∉ dirChildren fsOther "/r/g".data ["sock".data, "h.txt".data] ∧
     "sock".data ∉ fileChildren fsOther "/r/g".data ["sock".data, "h.txt".data] ∧
     listDirModel fsOther "g".data "/r/g".data =
       DirResult.page (pageTemplate "g".data
         (listElementsOf "g".data
           (dirChildren fsOther "/r/g".data ["sock".data, "h.txt".data])
           (fileChildren fsOther "/r/g".data ["sock".data, "h.txt".data])))) :=
  ⟨by decide, by decide, by decide,
   other_inode_child_omitted fsOther "g".data "/r/g".data
     ["sock".data, "h.txt".data] "sock".data (by decide) (by decide) (by decide)⟩

end HttpFileServer
